import Mathlib

/-!
Shallow embedding of the `brainstorm` agent/chat-orchestration core
(`src/brainstorm/agents.py`, `src/brainstorm/ai.py`, `src/brainstorm/models.py`)
and proofs of the specified properties.

Python dicts are modelled as insertion-ordered association lists
(`lookupA` = key membership / access, `setA` = `d[k] = v`).
Python exceptions are modelled as `Except` results; the mutations a method
performed before raising are reflected in the state it returns alongside the
error, so "what the state looks like after a failed call" is observable.
-/

/-- First-match lookup in an association list (Python `d[k]` / `k in d`;
JSON objects and Python dicts have unique keys, for which first match and
the dict semantics agree). -/
def lookupA {α : Type} : List (String × α) → String → Option α
  | [], _ => none
  | (k', v) :: rest, k => if k' = k then some v else lookupA rest k

/-- Association-list update (Python `d[k] = v`): replace in place if the key
exists, else append at the end, matching dict insertion order. -/
def setA {α : Type} : List (String × α) → String → α → List (String × α)
  | [], k, v => [(k, v)]
  | (k', v') :: rest, k, v =>
    if k' = k then (k, v) :: rest else (k', v') :: setA rest k v

theorem lookupA_setA {α : Type} (l : List (String × α)) (k : String) (v : α) :
    lookupA (setA l k v) k = some v := by
  induction l with
  | nil => simp [setA, lookupA]
  | cons e rest ih =>
    by_cases h : e.1 = k
    · simp [setA, lookupA, h]
    · simp [setA, lookupA, h, ih]

theorem setA_setA {α : Type} (l : List (String × α)) (k : String) (v w : α) :
    setA (setA l k v) k w = setA l k w := by
  induction l with
  | nil => simp [setA]
  | cons e rest ih =>
    by_cases h : e.1 = k
    · simp [setA, h]
    · simp [setA, h, ih]

theorem lookupA_mem {α : Type} {l : List (String × α)} {k : String} {v : α}
    (h : lookupA l k = some v) : (k, v) ∈ l := by
  induction l with
  | nil => simp [lookupA] at h
  | cons e rest ih =>
    obtain ⟨k', v'⟩ := e
    by_cases he : k' = k
    · simp [lookupA, he] at h
      simp [he, h]
    · simp [lookupA, he] at h
      exact List.mem_cons_of_mem _ (ih h)

/-! ## Messages and conversations (`agents.py`) -/

/-- One content part of a message: `agents.py` stores content items as dicts
of the shape `\x7b"type": "text", "text": s\x7d` or
`\x7b"type": "image_url", "image_url": \x7b"url": u\x7d\x7d`. -/
inductive ContentItem where
  | text (text : String)
  | image (url : String)
deriving DecidableEq

/-- The `content` argument accepted by `Message.__init__`:
either a plain string or a list of content items. -/
inductive MessageContent where
  | str (s : String)
  | parts (items : List ContentItem)

/-- `agents.py` `Message`: a role plus the stored content list. -/
structure Message where
  role : String
  content : List ContentItem
deriving DecidableEq

/-- `Message.__init__`: a plain string is normalized to the one-element list
`[text s]`; a list of content items is stored unchanged. -/
def mkMessage (role : String) (content : MessageContent) : Message :=
  match content with
  | .str s => ⟨role, [.text s]⟩
  | .parts items => ⟨role, items⟩

/-- `Message.get_text_content`: the texts of the `text`-typed items, in order. -/
def Message.get_text_content (m : Message) : List String :=
  m.content.filterMap fun item =>
    match item with
    | .text t => some t
    | _ => none

/-- `Message.get_image_urls`: the urls of the `image_url`-typed items. -/
def Message.get_image_urls (m : Message) : List String :=
  m.content.filterMap fun item =>
    match item with
    | .image u => some u
    | _ => none

/-- `agents.py` `Conversation`: an identifier plus the ordered message list. -/
structure Conversation where
  id : String
  messages : List Message
deriving DecidableEq

/-- `Conversation.add_message`: append one message at the end. -/
def Conversation.add_message (conv : Conversation) (m : Message) : Conversation :=
  { conv with messages := conv.messages ++ [m] }

/-- A formatted message for the provider API: the dict
`\x7b"role": r, "content": c\x7d` is modelled as the pair `(r, c)`. -/
abbrev FormattedMsg := String × List ContentItem

/-- `Conversation.format_for_ai`: each stored message becomes a
role/content pair, in stored order, with no content transformation. -/
def Conversation.format_for_ai (conv : Conversation) : List FormattedMsg :=
  conv.messages.map fun m => (m.role, m.content)

/-! ## Agent (`agents.py`) -/

/-- `agents.py` `Agent` state: persona, default model and the
conversation store (`self.conversations`, a dict id → Conversation).
The `ai` collaborator and the (never automatically invoked) tools are
passed to `run` separately as the provider function. -/
structure Agent where
  name : String
  description : String
  default_model : String
  conversations : List (String × Conversation)
deriving DecidableEq

/-- `Agent.system_prompt`. -/
def Agent.system_prompt (ag : Agent) : String :=
  "You are " ++ ag.name ++ ". Your goal is to be " ++ ag.description

/-- The message list sent to the provider inside `Agent.run`: the
conversation formatted for the AI with the synthesized system message
inserted at position 0 (agents.py lines 148-153). -/
def messagesForAI (ag : Agent) (conv : Conversation) : List FormattedMsg :=
  ("system", [ContentItem.text ag.system_prompt]) :: conv.format_for_ai

/-- `if not model: model = self.default_model` (Python truthiness:
`None` and the empty string both select the default). -/
def effectiveModel (ag : Agent) : Option String → String
  | none => ag.default_model
  | some m => if m = "" then ag.default_model else m

/-- Conversation resolution at the top of `Agent.run` (lines 135-140):
a falsy `conversation_id` (absent or empty string) registers a fresh empty
conversation under a newly drawn identifier (`freshId` stands for the
`uuid4` value); otherwise the store is left as is and the given identifier
is looked up afterwards. Returns the effective identifier and the store. -/
def resolveConv (ag : Agent) (cid : Option String) (freshId : String) :
    String × List (String × Conversation) :=
  match cid with
  | none => (freshId, setA ag.conversations freshId ⟨freshId, []⟩)
  | some c =>
    if c = "" then (freshId, setA ag.conversations freshId ⟨freshId, []⟩)
    else (c, ag.conversations)

/-- Errors `Agent.run` can raise: `notFound` is the `KeyError` from
`self.conversations[conversation_id]`; `providerFailure` carries the
exception raised by the provider call. -/
inductive RunErr where
  | notFound
  | providerFailure (e : String)
deriving DecidableEq

/-- Synchronous `Agent.run` (`stream=False`, lines 132-210): resolve the
conversation, append the user message, build the provider payload, call the
provider, and append the assistant message only on success. The returned
`Agent` is the post-call state, including mutations made before a raise. -/
def runSync (ag : Agent) (provider : String → List FormattedMsg → Except String String)
    (userInput : String) (cid : Option String) (model : Option String)
    (freshId : String) : Except RunErr String × Agent :=
  let m := effectiveModel ag model
  let rc := resolveConv ag cid freshId
  match lookupA rc.2 rc.1 with
  | none => (.error .notFound, ag)
  | some conv =>
    let conv₁ := conv.add_message (mkMessage "user" (.parts [.text userInput]))
    let convs₁ := setA rc.2 rc.1 conv₁
    match provider m (messagesForAI ag conv₁) with
    | .error e => (.error (.providerFailure e), { ag with conversations := convs₁ })
    | .ok resp =>
      let conv₂ := conv₁.add_message (mkMessage "assistant" (.parts [.text resp]))
      (.ok resp, { ag with conversations := setA convs₁ rc.1 conv₂ })

/-- For a non-empty identifier the store is untouched and the identifier is
used as given. -/
theorem resolveConv_registered (ag : Agent) (c freshId : String) (hc : c ≠ "") :
    resolveConv ag (some c) freshId = (c, ag.conversations) := by
  simp [resolveConv, hc]

/-- Characterization of a successful synchronous run on a registered,
non-empty conversation identifier: the user and assistant messages are
appended in that order and the response is returned. -/
theorem runSync_ok (ag : Agent)
    (provider : String → List FormattedMsg → Except String String)
    (u c : String) (conv : Conversation) (model : Option String) (freshId r : String)
    (hc : c ≠ "") (h : lookupA ag.conversations c = some conv)
    (hp : provider (effectiveModel ag model)
      (messagesForAI ag (conv.add_message (mkMessage "user" (.parts [.text u]))))
      = .ok r) :
    runSync ag provider u (some c) model freshId =
      (.ok r,
       { ag with conversations :=
          (setA ag.conversations c
            ((conv.add_message (mkMessage "user" (.parts [.text u]))).add_message
              (mkMessage "assistant" (.parts [.text r])))) }) := by
  simp only [runSync, resolveConv_registered ag c freshId hc, h, hp, setA_setA]

/-- Characterization of a failed synchronous run on a registered, non-empty
conversation identifier: the provider error propagates and the state reflects
exactly the user-message append made before the call — no assistant message. -/
theorem runSync_err (ag : Agent)
    (provider : String → List FormattedMsg → Except String String)
    (u c : String) (conv : Conversation) (model : Option String) (freshId e : String)
    (hc : c ≠ "") (h : lookupA ag.conversations c = some conv)
    (hp : provider (effectiveModel ag model)
      (messagesForAI ag (conv.add_message (mkMessage "user" (.parts [.text u]))))
      = .error e) :
    runSync ag provider u (some c) model freshId =
      (.error (.providerFailure e),
       { ag with conversations :=
          (setA ag.conversations c
            (conv.add_message (mkMessage "user" (.parts [.text u])))) }) := by
  simp only [runSync, resolveConv_registered ag c freshId hc, h, hp]

/-! ### Claim C1 -/

/-- Claim C1 counterexample: a synchronous run whose provider call fails does
change the conversation state — the user message appended before the provider
call (agents.py lines 142-146) persists.  Concretely, running agent A on the
registered empty conversation "c" with a provider that raises leaves "c" with
one user message, so the resulting state differs from the initial one. -/
theorem run_fail_mutates_cex :
    runSync ⟨"A", "helpful", "m", [("c", ⟨"c", []⟩)]⟩ (fun _ _ => .error "boom")
        "hello" (some "c") none "f" =
      (.error (.providerFailure "boom"),
       ⟨"A", "helpful", "m",
        [("c", ⟨"c", [⟨"user", [ContentItem.text "hello"]⟩]⟩)]⟩) ∧
    (⟨"A", "helpful", "m",
      [("c", ⟨"c", [⟨"user", [ContentItem.text "hello"]⟩]⟩)]⟩ : Agent) ≠
      ⟨"A", "helpful", "m", [("c", ⟨"c", []⟩)]⟩ := by
  exact ⟨rfl, by decide⟩

/-- Claim C1 (amended): in synchronous mode a failed provider call leaves the
conversation with exactly the user message appended before the call and no
assistant message (in particular no partial assistant text); the assistant
message is appended exactly when the provider call fully succeeds. -/
theorem run_fail_no_assistant (ag : Agent)
    (provider : String → List FormattedMsg → Except String String)
    (u c : String) (conv : Conversation) (model : Option String) (freshId : String)
    (hc : c ≠ "") (h : lookupA ag.conversations c = some conv) :
    (∀ e, provider (effectiveModel ag model)
        (messagesForAI ag (conv.add_message (mkMessage "user" (.parts [.text u]))))
        = .error e →
      runSync ag provider u (some c) model freshId =
        (.error (.providerFailure e),
         { ag with conversations :=
            (setA ag.conversations c
              (conv.add_message (mkMessage "user" (.parts [.text u])))) })) ∧
    (∀ r, provider (effectiveModel ag model)
        (messagesForAI ag (conv.add_message (mkMessage "user" (.parts [.text u]))))
        = .ok r →
      runSync ag provider u (some c) model freshId =
        (.ok r,
         { ag with conversations :=
            (setA ag.conversations c
              ((conv.add_message (mkMessage "user" (.parts [.text u]))).add_message
                (mkMessage "assistant" (.parts [.text r])))) })) :=
  ⟨fun e hp => runSync_err ag provider u c conv model freshId e hc h hp,
   fun r hp => runSync_ok ag provider u c conv model freshId r hc h hp⟩

/-- Witness for C1 (amended) at concrete inputs: a failing provider leaves
only the user message; a succeeding provider appends user then assistant. -/
theorem run_fail_no_assistant_w :
    runSync ⟨"B", "terse", "m", [("k", ⟨"k", []⟩)]⟩ (fun _ _ => .error "down")
        "hi" (some "k") none "f" =
      (.error (.providerFailure "down"),
       ⟨"B", "terse", "m", [("k", ⟨"k", [⟨"user", [ContentItem.text "hi"]⟩]⟩)]⟩) ∧
    runSync ⟨"B", "terse", "m", [("k", ⟨"k", []⟩)]⟩ (fun _ _ => .ok "yo")
        "hi" (some "k") none "f" =
      (.ok "yo",
       ⟨"B", "terse", "m",
        [("k", ⟨"k", [⟨"user", [ContentItem.text "hi"]⟩,
                      ⟨"assistant", [ContentItem.text "yo"]⟩]⟩)]⟩) := by
  constructor
  · exact (run_fail_no_assistant ⟨"B", "terse", "m", [("k", ⟨"k", []⟩)]⟩
      (fun _ _ => .error "down") "hi" "k" ⟨"k", []⟩ none "f"
      (by decide) rfl).1 "down" rfl
  · exact (run_fail_no_assistant ⟨"B", "terse", "m", [("k", ⟨"k", []⟩)]⟩
      (fun _ _ => .ok "yo") "hi" "k" ⟨"k", []⟩ none "f"
      (by decide) rfl).2 "yo" rfl

/-! ### Claim C7 -/

/-- Claim C7 counterexample: the empty string is an identifier that is not
registered with the Agent, yet supplying it to `run` does not fail with the
not-found error — `if not conversation_id` treats it as absent and a fresh
conversation is created, so the run succeeds. -/
theorem empty_id_no_notfound_cex :
    lookupA (([] : List (String × Conversation))) "" = none ∧
    (runSync ⟨"A", "helpful", "m", []⟩ (fun _ _ => .ok "hi") "hello" (some "")
        none "f").1 = .ok "hi" :=
  ⟨rfl, rfl⟩

/-- Claim C7 (amended): for every non-empty identifier not registered with
the Agent, `run` fails with the not-found error (the `KeyError` of
`self.conversations[conversation_id]`) and leaves the agent unchanged; an
empty identifier is instead treated as absent and a fresh conversation is
created. -/
theorem unknown_id_notfound (ag : Agent)
    (provider : String → List FormattedMsg → Except String String)
    (input c : String) (model : Option String) (freshId : String)
    (hc : c ≠ "") (h : lookupA ag.conversations c = none) :
    runSync ag provider input (some c) model freshId = (.error .notFound, ag) := by
  simp only [runSync, resolveConv_registered ag c freshId hc, h]

/-- Witness for C7 (amended): the unregistered identifier "zzz" makes the
run fail with the not-found error, agent unchanged. -/
theorem unknown_id_notfound_w :
    runSync ⟨"A", "helpful", "m", []⟩ (fun _ _ => .ok "hi") "hello" (some "zzz")
        none "f" = (.error .notFound, ⟨"A", "helpful", "m", []⟩) :=
  unknown_id_notfound ⟨"A", "helpful", "m", []⟩ (fun _ _ => .ok "hi") "hello"
    "zzz" none "f" (by decide) rfl

/-! ### Claim C6 -/

/-- A sequence of synchronous `run` calls on one conversation identifier,
where call i sends user text `pairs[i].1` and the provider replies with
`pairs[i].2`. -/
def runSeq (ag : Agent) (cid : String) : List (String × String) → Agent
  | [] => ag
  | p :: rest =>
    runSeq (runSync ag (fun _ _ => Except.ok p.2) p.1 (some cid) none cid).2 cid rest

/-- The messages such a sequence of runs appends: alternating user/assistant
pairs in call order. -/
def pairsFlat : List (String × String) → List Message
  | [] => []
  | p :: rest =>
    mkMessage "user" (.parts [.text p.1]) ::
      mkMessage "assistant" (.parts [.text p.2]) :: pairsFlat rest

theorem runSeq_lookup (cid : String) (hc : cid ≠ "")
    (pairs : List (String × String)) :
    ∀ (ag : Agent) (conv : Conversation),
      lookupA ag.conversations cid = some conv →
      lookupA (runSeq ag cid pairs).conversations cid =
        some ⟨conv.id, conv.messages ++ pairsFlat pairs⟩ := by
  induction pairs with
  | nil =>
    intro ag conv h
    simpa [runSeq, pairsFlat] using h
  | cons p rest ih =>
    intro ag conv h
    rw [runSeq,
      runSync_ok ag (fun _ _ => Except.ok p.2) p.1 cid conv none cid p.2 hc h rfl]
    have h2 := ih { ag with conversations :=
        (setA ag.conversations cid
          ((conv.add_message (mkMessage "user" (.parts [.text p.1]))).add_message
            (mkMessage "assistant" (.parts [.text p.2])))) }
      ((conv.add_message (mkMessage "user" (.parts [.text p.1]))).add_message
        (mkMessage "assistant" (.parts [.text p.2])))
      (lookupA_setA ag.conversations cid _)
    simpa [Conversation.add_message, pairsFlat] using h2

/-- Claim C6: for every sequence of `run` calls on one (registered,
non-empty) conversation identifier, the conversation holds exactly the
initial messages (e.g. a leading system message) followed by the
user/assistant pairs in call order, and `format_for_ai` serializes exactly
that list, in order, mapping each message to its role/content pair with no
reordering, deduplication or content transformation. -/
theorem serialize_append_order (ag : Agent) (cid : String) (conv : Conversation)
    (pairs : List (String × String)) (hc : cid ≠ "")
    (h : lookupA ag.conversations cid = some conv) :
    lookupA (runSeq ag cid pairs).conversations cid =
      some ⟨conv.id, conv.messages ++ pairsFlat pairs⟩ ∧
    Conversation.format_for_ai ⟨conv.id, conv.messages ++ pairsFlat pairs⟩ =
      (conv.messages ++ pairsFlat pairs).map fun m => (m.role, m.content) :=
  ⟨runSeq_lookup cid hc pairs ag conv h, rfl⟩

/-- Witness for C6: two runs on conversation "c" (starting from a leading
system message) leave system, user "hi", assistant "yo", user "a",
assistant "b" in exactly that order, and serialization preserves it. -/
theorem serialize_append_order_w :
    lookupA (runSeq ⟨"A", "helpful", "m",
        [("c", ⟨"c", [⟨"system", [ContentItem.text "s"]⟩]⟩)]⟩ "c"
        [("hi", "yo"), ("a", "b")]).conversations "c" =
      some ⟨"c", [⟨"system", [ContentItem.text "s"]⟩] ++
        pairsFlat [("hi", "yo"), ("a", "b")]⟩ ∧
    Conversation.format_for_ai ⟨"c", [⟨"system", [ContentItem.text "s"]⟩] ++
        pairsFlat [("hi", "yo"), ("a", "b")]⟩ =
      (([⟨"system", [ContentItem.text "s"]⟩] : List Message) ++
        pairsFlat [("hi", "yo"), ("a", "b")]).map fun m => (m.role, m.content) :=
  serialize_append_order ⟨"A", "helpful", "m",
      [("c", ⟨"c", [⟨"system", [ContentItem.text "s"]⟩]⟩)]⟩ "c"
    ⟨"c", [⟨"system", [ContentItem.text "s"]⟩]⟩ [("hi", "yo"), ("a", "b")]
    (by decide) rfl

/-! ## Streaming without a handler (`collect_and_yield`, agents.py 176-196) -/

/-- The state of the `collect_and_yield` generator: the upstream fragments
not yet yielded, the running `full_response` buffer, and whether the
generator has finished (run its post-loop code and raised StopIteration). -/
structure GenState where
  pending : List String
  acc : String
  closed : Bool
deriving DecidableEq

/-- One `next()` call on the `collect_and_yield` generator.  While fragments
remain, the fragment is accumulated into `full_response` and yielded, and the
conversation is untouched.  On the call after the last fragment the post-loop
code runs: exactly then one assistant message holding the accumulated text is
appended, and the generator signals exhaustion (`none`).  A closed generator
keeps signalling exhaustion without further effect. -/
def genNext (g : GenState) (conv : Conversation) :
    Option String × GenState × Conversation :=
  if g.closed then (none, g, conv)
  else
    match g.pending with
    | c :: rest => (some c, ⟨rest, g.acc ++ c, false⟩, conv)
    | [] =>
      (none, ⟨[], g.acc, true⟩,
       conv.add_message (mkMessage "assistant" (.parts [.text g.acc])))

/-- `k` consecutive `next()` calls, collecting the yielded values. -/
def genSteps : Nat → GenState → Conversation →
    List (Option String) × GenState × Conversation
  | 0, g, conv => ([], g, conv)
  | k + 1, g, conv =>
    let s := genNext g conv
    let r := genSteps k s.2.1 s.2.2
    (s.1 :: r.1, r.2.1, r.2.2)

/-- Streaming `Agent.run` with `stream=True` and no handler (lines 175-196):
same setup as the synchronous mode, then the `collect_and_yield` generator is
returned without having consumed anything.  The result carries the generator
state and the conversation object the generator closure will append to. -/
def runStreamNoHandler (ag : Agent)
    (streamProvider : String → List FormattedMsg → List String)
    (userInput : String) (cid : Option String) (model : Option String)
    (freshId : String) : Except RunErr (GenState × Conversation) × Agent :=
  let m := effectiveModel ag model
  let rc := resolveConv ag cid freshId
  match lookupA rc.2 rc.1 with
  | none => (.error .notFound, ag)
  | some conv =>
    let conv₁ := conv.add_message (mkMessage "user" (.parts [.text userInput]))
    (.ok (⟨streamProvider m (messagesForAI ag conv₁), "", false⟩, conv₁),
     { ag with conversations := setA rc.2 rc.1 conv₁ })

/-- One consuming step on an open generator with a fragment pending. -/
theorem genSteps_succ_cons (k : Nat) (c : String) (rest : List String)
    (acc : String) (conv : Conversation) :
    genSteps (k + 1) ⟨c :: rest, acc, false⟩ conv =
      (some c :: (genSteps k ⟨rest, acc ++ c, false⟩ conv).1,
       (genSteps k ⟨rest, acc ++ c, false⟩ conv).2) := by
  simp [genSteps, genNext]

/-- Fully draining an open generator: every pending fragment is yielded in
order, one further `next()` call returns `none`, the final buffer is the
left-fold concatenation of the fragments onto the current buffer, and exactly
one assistant message holding that buffer is appended. -/
theorem genSteps_drain (frags : List String) (acc : String) (conv : Conversation) :
    genSteps (frags.length + 1) ⟨frags, acc, false⟩ conv =
      (frags.map some ++ [none],
       ⟨[], frags.foldl (· ++ ·) acc, true⟩,
       conv.add_message (mkMessage "assistant"
         (.parts [.text (frags.foldl (· ++ ·) acc)]))) := by
  induction frags generalizing acc conv with
  | nil => simp [genSteps, genNext]
  | cons c rest ih =>
    show genSteps (rest.length + 1 + 1) ⟨c :: rest, acc, false⟩ conv = _
    rw [genSteps_succ_cons, ih (acc ++ c) conv]
    simp

/-- Consuming only `k ≤ pending.length` fragments: every consumed value is a
fragment (in order), the generator is still open, and the conversation is
untouched — in particular no assistant message has been appended. -/
theorem genSteps_early (k : Nat) (frags : List String) (acc : String)
    (conv : Conversation) (hk : k ≤ frags.length) :
    genSteps k ⟨frags, acc, false⟩ conv =
      ((frags.take k).map some,
       ⟨frags.drop k, (frags.take k).foldl (· ++ ·) acc, false⟩, conv) := by
  induction k generalizing frags acc with
  | zero => simp [genSteps]
  | succ k ih =>
    cases frags with
    | nil => simp at hk
    | cons c rest =>
      simp only [genSteps, genNext]
      simp only [List.length_cons, Nat.add_le_add_iff_right] at hk
      simp [ih rest (acc ++ c) hk, List.take_succ_cons, List.drop_succ_cons]

/-! ### Claim C2 -/

/-- Claim C2: in streaming mode without a handler, for every finite sequence
of upstream fragments, `run` returns the generator (with the user message
already appended); fully draining it yields exactly the fragments in arrival
order followed by exhaustion, and upon exhaustion exactly one assistant
message whose text is the concatenation of all fragments has been appended
to the conversation. -/
theorem stream_drain_concat (ag : Agent)
    (streamProvider : String → List FormattedMsg → List String)
    (input c : String) (conv : Conversation) (model : Option String)
    (freshId : String) (hc : c ≠ "") (h : lookupA ag.conversations c = some conv) :
    ∃ frags conv₁,
      conv₁ = conv.add_message (mkMessage "user" (.parts [.text input])) ∧
      frags = streamProvider (effectiveModel ag model) (messagesForAI ag conv₁) ∧
      runStreamNoHandler ag streamProvider input (some c) model freshId =
        (.ok (⟨frags, "", false⟩, conv₁),
         { ag with conversations := setA ag.conversations c conv₁ }) ∧
      genSteps (frags.length + 1) ⟨frags, "", false⟩ conv₁ =
        (frags.map some ++ [none],
         ⟨[], String.join frags, true⟩,
         conv₁.add_message (mkMessage "assistant"
           (.parts [.text (String.join frags)]))) := by
  refine ⟨_, _, rfl, rfl, ?_, ?_⟩
  · simp only [runStreamNoHandler, resolveConv_registered ag c freshId hc, h]
  · have hj : String.join (streamProvider (effectiveModel ag model)
        (messagesForAI ag (conv.add_message (mkMessage "user"
          (.parts [.text input]))))) =
        (streamProvider (effectiveModel ag model)
          (messagesForAI ag (conv.add_message (mkMessage "user"
            (.parts [.text input]))))).foldl (· ++ ·) "" := rfl
    rw [hj]
    exact genSteps_drain _ "" _

/-- Witness for C2, matching the spec example: fragments
"Hel", "lo, ", "world" are yielded in order and exactly one assistant
message with text "Hello, world" is appended upon exhaustion. -/
theorem stream_drain_concat_w :
    (∃ frags conv₁,
      conv₁ = Conversation.add_message ⟨"c", []⟩
        (mkMessage "user" (.parts [.text "greet"])) ∧
      frags = (fun (_ : String) (_ : List FormattedMsg) =>
        ["Hel", "lo, ", "world"]) (effectiveModel ⟨"A", "kind", "m",
          [("c", ⟨"c", []⟩)]⟩ none)
        (messagesForAI ⟨"A", "kind", "m", [("c", ⟨"c", []⟩)]⟩ conv₁) ∧
      runStreamNoHandler ⟨"A", "kind", "m", [("c", ⟨"c", []⟩)]⟩
        (fun _ _ => ["Hel", "lo, ", "world"]) "greet" (some "c") none "f" =
        (.ok (⟨frags, "", false⟩, conv₁),
         { (⟨"A", "kind", "m", [("c", ⟨"c", []⟩)]⟩ : Agent) with
            conversations := setA [("c", ⟨"c", []⟩)] "c" conv₁ }) ∧
      genSteps (frags.length + 1) ⟨frags, "", false⟩ conv₁ =
        (frags.map some ++ [none],
         ⟨[], String.join frags, true⟩,
         conv₁.add_message (mkMessage "assistant"
           (.parts [.text (String.join frags)])))) ∧
    String.join ["Hel", "lo, ", "world"] = "Hello, world" :=
  ⟨stream_drain_concat ⟨"A", "kind", "m", [("c", ⟨"c", []⟩)]⟩
      (fun _ _ => ["Hel", "lo, ", "world"]) "greet" "c" ⟨"c", []⟩ none "f"
      (by decide) rfl,
   by decide⟩

/-! ### Claim C3 -/

/-- Claim C3: in streaming mode without a handler, a consumer that abandons
the returned generator before it is exhausted (k `next()` calls with
k ≤ number of fragments — so exhaustion was never signalled) never triggers
the append: the conversation still holds exactly the prior messages plus the
user message of this run, and no assistant message — not even one with the
partial text — was added by the run. -/
theorem stream_abandon_no_append (ag : Agent)
    (streamProvider : String → List FormattedMsg → List String)
    (input c : String) (conv : Conversation) (model : Option String)
    (freshId : String) (g : GenState) (conv₁ : Conversation) (ag' : Agent)
    (k : Nat) (hc : c ≠ "") (h : lookupA ag.conversations c = some conv)
    (hrun : runStreamNoHandler ag streamProvider input (some c) model freshId =
      (.ok (g, conv₁), ag'))
    (hk : k ≤ g.pending.length) :
    (genSteps k g conv₁).2.2 = conv₁ ∧
    conv₁ = conv.add_message (mkMessage "user" (.parts [.text input])) := by
  have hr : runStreamNoHandler ag streamProvider input (some c) model freshId =
      (.ok (⟨streamProvider (effectiveModel ag model)
          (messagesForAI ag (conv.add_message (mkMessage "user"
            (.parts [.text input])))), "", false⟩,
        conv.add_message (mkMessage "user" (.parts [.text input]))),
       { ag with conversations :=
          (setA ag.conversations c
            (conv.add_message (mkMessage "user" (.parts [.text input])))) }) := by
    simp only [runStreamNoHandler, resolveConv_registered ag c freshId hc, h]
  have h12 := hr.symm.trans hrun
  simp only [Prod.mk.injEq, Except.ok.injEq] at h12
  obtain ⟨⟨hg, hc1⟩, -⟩ := h12
  subst hg
  subst hc1
  refine ⟨?_, rfl⟩
  rw [genSteps_early k _ "" _ hk]

/-- Witness for C3: abandoning after one of two fragments leaves the
conversation with only the user message — no assistant message. -/
theorem stream_abandon_no_append_w :
    (genSteps 1 ⟨["Hel", "lo"], "", false⟩
        (Conversation.add_message ⟨"c", []⟩
          (mkMessage "user" (.parts [.text "greet"])))).2.2 =
      Conversation.add_message ⟨"c", []⟩
        (mkMessage "user" (.parts [.text "greet"])) ∧
    Conversation.add_message ⟨"c", []⟩
        (mkMessage "user" (.parts [.text "greet"])) =
      Conversation.add_message ⟨"c", []⟩
        (mkMessage "user" (.parts [.text "greet"])) :=
  stream_abandon_no_append ⟨"A", "kind", "m", [("c", ⟨"c", []⟩)]⟩
    (fun _ _ => ["Hel", "lo"]) "greet" "c" ⟨"c", []⟩ none "f"
    ⟨["Hel", "lo"], "", false⟩
    (Conversation.add_message ⟨"c", []⟩ (mkMessage "user" (.parts [.text "greet"])))
    ⟨"A", "kind", "m", [("c", Conversation.add_message ⟨"c", []⟩
      (mkMessage "user" (.parts [.text "greet"])))]⟩
    1 (by decide) rfl rfl (by decide)

/-! ## Model registry (`models.py`) and the model definition source -/

/-- One entry of the `models.json` definition source (not under version
control of the core): `category` (a string), `description`, optional
`max_tokens`, optional `is_experimental`. -/
structure ModelData where
  category : String
  description : String
  max_tokens : Option Nat
  is_experimental : Option Bool
deriving DecidableEq

/-- The parsed `models.json` document: provider name → model identifier →
model data, as insertion-ordered association lists. -/
abbrev Src := List (String × List (String × ModelData))

/-- The provider-scan loop shared by both `get_model_info` functions
(`ai.py` lines 39-42, `models.py` via the flattened dict): walk the
providers in declaration order and return the first provider map containing
the model name. -/
def scanAll {α : Type} (src : List (String × List (String × α)))
    (modelName : String) : Option α :=
  match src with
  | [] => none
  | e :: rest =>
    match lookupA e.2 modelName with
    | some d => some d
    | none => scanAll rest modelName

/-- `get_model_info(model_name, provider)` (`ai.py` lines 30-44, and the
spec §4.4 `lookup(modelId, providerHint?)`): if a truthy provider hint is
given and present, search that provider's models first; otherwise (or if
the hinted provider lacks the model) scan all providers in declaration
order. Polymorphic in the entry type: `ai.py` applies it to the raw
document, the registry applies the same search to loaded `ModelInfo`s. -/
def modelLookup {α : Type} (src : List (String × List (String × α)))
    (modelName : String) (provider : Option String) : Option α :=
  match provider with
  | some p =>
    if p = "" then scanAll src modelName
    else
      match lookupA src p with
      | some pm =>
        match lookupA pm modelName with
        | some d => some d
        | none => scanAll src modelName
      | none => scanAll src modelName
  | none => scanAll src modelName

/-- `models.py` `ModelCategory`: the closed enumeration of capability
categories. -/
inductive ModelCategory where
  | GENERAL
  | CODE
  | VISION
  | LONG_CONTEXT
  | FAST
  | EXPERIMENTAL
deriving DecidableEq

/-- The closed enumeration as a list, for membership statements. -/
def allCategories : List ModelCategory :=
  [.GENERAL, .CODE, .VISION, .LONG_CONTEXT, .FAST, .EXPERIMENTAL]

theorem mem_allCategories (c : ModelCategory) : c ∈ allCategories := by
  cases c <;> simp [allCategories]

/-- Python's `str.upper()`: uppercase every character (written over the
character list so it evaluates in the kernel; extensionally it is
`String.map Char.toUpper`). -/
def strUpper (s : String) : String := ⟨s.data.map Char.toUpper⟩

/-- `ModelCategory[category.upper()]` in `ModelInfo.__init__`: resolve the
category string case-insensitively; an unknown name raises (here: `none`). -/
def parseCategory (s : String) : Option ModelCategory :=
  if strUpper s = "GENERAL" then some .GENERAL
  else if strUpper s = "CODE" then some .CODE
  else if strUpper s = "VISION" then some .VISION
  else if strUpper s = "LONG_CONTEXT" then some .LONG_CONTEXT
  else if strUpper s = "FAST" then some .FAST
  else if strUpper s = "EXPERIMENTAL" then some .EXPERIMENTAL
  else none

/-- `models.py` `ModelInfo`. -/
structure ModelInfo where
  name : String
  provider : String
  category : ModelCategory
  description : String
  max_tokens : Option Nat
  is_experimental : Bool
deriving DecidableEq

/-- `ModelInfo(name=model_name, provider=provider, ...)` as built inside
`load_models` (`models.py` lines 56-63), including the category-string
resolution that can raise. -/
def mkModelInfo (name provider : String) (d : ModelData) : Option ModelInfo :=
  (parseCategory d.category).map fun cat =>
    ⟨name, provider, cat, d.description, d.max_tokens, d.is_experimental.getD false⟩

/-- The inner loop of `models.py` `load_models`: build the ModelInfo map for
one provider, in declaration order; fails if any category is unknown. -/
def loadProviderModels (provider : String) :
    List (String × ModelData) → Option (List (String × ModelInfo))
  | [] => some []
  | (k, d) :: rest =>
    match mkModelInfo k provider d, loadProviderModels provider rest with
    | some mi, some r => some ((k, mi) :: r)
    | _, _ => none

/-- `models.py` `load_models`: provider name → model identifier → ModelInfo,
in declaration order; fails if any entry's category is unknown. -/
def load_models : Src → Option (List (String × List (String × ModelInfo)))
  | [] => some []
  | (p, pm) :: rest =>
    match loadProviderModels p pm, load_models rest with
    | some l, some r => some ((p, l) :: r)
    | _, _ => none

/-- In a loaded provider map every entry's `name` is its key, its category
parses from the source, and every source key is present. -/
theorem loadProviderModels_inv (provider : String) (pm : List (String × ModelData))
    (l : List (String × ModelInfo)) (h : loadProviderModels provider pm = some l) :
    (∀ k mi, lookupA l k = some mi → mi.name = k) ∧
    (∀ k, (lookupA pm k).isSome → (lookupA l k).isSome) := by
  induction pm generalizing l with
  | nil =>
    simp only [loadProviderModels] at h
    obtain rfl := Option.some.inj h
    exact ⟨fun k mi hk => by simp [lookupA] at hk, fun k hk => by simp [lookupA] at hk⟩
  | cons e rest ih =>
    obtain ⟨k0, d0⟩ := e
    simp only [loadProviderModels] at h
    cases hmi : mkModelInfo k0 provider d0 with
    | none => rw [hmi] at h; simp at h
    | some mi0 =>
      rw [hmi] at h
      cases hr : loadProviderModels provider rest with
      | none => rw [hr] at h; simp at h
      | some r =>
        rw [hr] at h
        simp only [Option.some.injEq] at h
        subst h
        obtain ⟨ih1, ih2⟩ := ih r hr
        constructor
        · intro k mi hk
          by_cases hke : k0 = k
          · simp only [lookupA, if_pos hke] at hk
            obtain rfl := Option.some.injEq .. ▸ hk
            obtain ⟨cat, -, hmk⟩ := Option.map_eq_some'.mp hmi
            rw [← hmk]
            exact hke
          · simp only [lookupA, if_neg hke] at hk
            exact ih1 k mi hk
        · intro k hk
          by_cases hke : k0 = k
          · simp [lookupA, hke]
          · simp only [lookupA, if_neg hke] at hk ⊢
            exact ih2 k hk

/-- A loaded registry mirrors the source providers: each source provider maps
to a loaded provider map, and every registry entry arises from loading. -/
theorem load_models_inv (src : Src)
    (reg : List (String × List (String × ModelInfo)))
    (h : load_models src = some reg) :
    (∀ p pm, lookupA src p = some pm →
      ∃ l, lookupA reg p = some l ∧ loadProviderModels p pm = some l) ∧
    (∀ e, e ∈ reg → ∃ pm, loadProviderModels e.1 pm = some e.2) := by
  induction src generalizing reg with
  | nil =>
    simp only [load_models] at h
    obtain rfl := Option.some.inj h
    exact ⟨fun p pm hp => by simp [lookupA] at hp, fun e he => by simp at he⟩
  | cons s rest ih =>
    obtain ⟨p0, pm0⟩ := s
    simp only [load_models] at h
    cases hl : loadProviderModels p0 pm0 with
    | none => rw [hl] at h; simp at h
    | some l0 =>
      rw [hl] at h
      cases hr : load_models rest with
      | none => rw [hr] at h; simp at h
      | some r =>
        rw [hr] at h
        simp only [Option.some.injEq] at h
        subst h
        obtain ⟨ih1, ih2⟩ := ih r hr
        constructor
        · intro p pm hp
          by_cases hpe : p0 = p
          · simp only [lookupA, if_pos hpe] at hp
            obtain rfl := Option.some.injEq .. ▸ hp
            exact ⟨l0, by simp [lookupA, hpe], hpe ▸ hl⟩
          · simp only [lookupA, if_neg hpe] at hp ⊢
            exact ih1 p pm hp
        · intro e he
          rcases List.mem_cons.mp he with he0 | heRest
          · subst he0
            exact ⟨pm0, hl⟩
          · exact ih2 e heRest

/-- Scanning succeeds whenever some provider map contains the name. -/
theorem scanAll_isSome {α : Type} (reg : List (String × List (String × α)))
    (p k : String) (l : List (String × α))
    (hp : lookupA reg p = some l) (hk : (lookupA l k).isSome) :
    (scanAll reg k).isSome := by
  induction reg with
  | nil => simp [lookupA] at hp
  | cons e rest ih =>
    obtain ⟨p0, l0⟩ := e
    by_cases hpe : p0 = p
    · simp only [lookupA, if_pos hpe] at hp
      obtain rfl := Option.some.injEq .. ▸ hp
      simp only [scanAll]
      cases hl : lookupA l0 k with
      | none => rw [hl] at hk; simp at hk
      | some d => simp
    · simp only [lookupA, if_neg hpe] at hp
      simp only [scanAll]
      cases hl : lookupA l0 k with
      | none => exact ih hp
      | some d => simp

/-- Any scan hit comes from one of the registry's provider maps. -/
theorem scanAll_mem {α : Type} (reg : List (String × List (String × α)))
    (k : String) (d : α) (h : scanAll reg k = some d) :
    ∃ e, e ∈ reg ∧ lookupA e.2 k = some d := by
  induction reg with
  | nil => simp [scanAll] at h
  | cons e rest ih =>
    simp only [scanAll] at h
    cases hl : lookupA e.2 k with
    | some d0 =>
      rw [hl] at h
      obtain rfl := Option.some.injEq .. ▸ h
      exact ⟨e, List.mem_cons_self .., hl⟩
    | none =>
      rw [hl] at h
      obtain ⟨e', he', hk'⟩ := ih h
      exact ⟨e', List.mem_cons_of_mem _ he', hk'⟩

/-! ### Claim C8 -/

/-- Claim C8: for every provider/modelId pair present in the definition
source (assuming the source loads, i.e. all category strings resolve),
looking up the modelId with that provider as hint in the loaded registry
returns a ModelInfo whose `name` equals the modelId and whose category
belongs to the closed six-element enumeration. -/
theorem lookup_round_trip (src : Src)
    (reg : List (String × List (String × ModelInfo)))
    (p k : String) (pm : List (String × ModelData)) (d : ModelData)
    (hload : load_models src = some reg)
    (hp : lookupA src p = some pm) (hk : lookupA pm k = some d) :
    ∃ mi, modelLookup reg k (some p) = some mi ∧
      mi.name = k ∧ mi.category ∈ allCategories := by
  obtain ⟨hsrc, hentries⟩ := load_models_inv src reg hload
  obtain ⟨l, hlp, hlo⟩ := hsrc p pm hp
  obtain ⟨hname, hkeys⟩ := loadProviderModels_inv p pm l hlo
  have hkl : (lookupA l k).isSome := hkeys k (by simp [hk])
  have hscan : ∀ mi, scanAll reg k = some mi →
      mi.name = k ∧ mi.category ∈ allCategories := by
    intro mi hs
    obtain ⟨e, he, hek⟩ := scanAll_mem reg k mi hs
    obtain ⟨pm', hpm'⟩ := hentries e he
    obtain ⟨hname', -⟩ := loadProviderModels_inv e.1 pm' e.2 hpm'
    exact ⟨hname' k mi hek, mem_allCategories mi.category⟩
  by_cases hpe : p = ""
  · subst hpe
    simp only [modelLookup, if_pos rfl]
    obtain ⟨mi, hmi⟩ := Option.isSome_iff_exists.mp
      (scanAll_isSome reg "" k l hlp hkl)
    obtain ⟨h1, h2⟩ := hscan mi hmi
    exact ⟨mi, hmi, h1, h2⟩
  · simp only [modelLookup, if_neg hpe, hlp]
    obtain ⟨mi, hmi⟩ := Option.isSome_iff_exists.mp hkl
    rw [hmi]
    exact ⟨mi, rfl, hname k mi hmi, mem_allCategories mi.category⟩

/-- Witness for C8 at a concrete source: pair ("openrouter", "openai/gpt-4o")
loads and looks up to a ModelInfo named "openai/gpt-4o" with an enumerated
category. -/
theorem lookup_round_trip_w :
    ∃ mi,
      modelLookup
        ([("openai", [("gpt-4o", ⟨"gpt-4o", "openai", .GENERAL, "flagship",
          some 128000, false⟩)]),
         ("openrouter", [("openai/gpt-4o", ⟨"openai/gpt-4o", "openrouter",
          .VISION, "proxied", none, true⟩)])] :
          List (String × List (String × ModelInfo)))
        "openai/gpt-4o" (some "openrouter") = some mi ∧
      mi.name = "openai/gpt-4o" ∧ mi.category ∈ allCategories :=
  lookup_round_trip
    [("openai", [("gpt-4o", ⟨"general", "flagship", some 128000, none⟩)]),
     ("openrouter", [("openai/gpt-4o", ⟨"vision", "proxied", none, some true⟩)])]
    [("openai", [("gpt-4o", ⟨"gpt-4o", "openai", .GENERAL, "flagship",
      some 128000, false⟩)]),
     ("openrouter", [("openai/gpt-4o", ⟨"openai/gpt-4o", "openrouter",
      .VISION, "proxied", none, true⟩)])]
    "openrouter" "openai/gpt-4o"
    [("openai/gpt-4o", ⟨"vision", "proxied", none, some true⟩)]
    ⟨"vision", "proxied", none, some true⟩
    (by decide) (by decide) (by decide)

/-! ## Provider adapter (`ai.py`) -/

/-- The upstream chat-completion response as `handle_response` inspects it:
an optional error envelope (a dict with string values; an attribute that is
absent or an empty dict is falsy and ignored) and the list of choices, each
carrying `message.content`. -/
structure RespMessage where
  content : String
deriving DecidableEq

structure Choice where
  message : RespMessage
deriving DecidableEq

structure Response where
  error : Option (List (String × String))
  choices : List Choice
deriving DecidableEq

/-- The failures of the synchronous completion path (`ai.py` lines 77-87):
`providerError` models the raise for an upstream error envelope, carrying
`error.get('message', 'Unknown error occurred')` and
`error.get('code', 'unknown')`; `emptyResponse` models the raise for zero
choices. -/
inductive HandleErr where
  | providerError (message code : String)
  | emptyResponse
deriving DecidableEq

/-- `ai.py` `handle_response`: raise on a truthy error envelope, raise on
zero choices, otherwise return `choices[0].message.content`. -/
def handle_response (r : Response) : Except HandleErr String :=
  match r.error with
  | some (p :: rest) =>
    .error (.providerError ((lookupA (p :: rest) "message").getD
        "Unknown error occurred")
      ((lookupA (p :: rest) "code").getD "unknown"))
  | _ =>
    match r.choices with
    | [] => .error .emptyResponse
    | c :: _ => .ok c.message.content

/-- The synchronous `get_response` closure built by `create_provider`
(`ai.py` lines 122-137) with `stream=False`: perform the network call
(`fetch`, standing for `client.chat.completions.create`) and interpret the
result with `handle_response`. -/
def get_response (fetch : String → List FormattedMsg → Response)
    (messages : List FormattedMsg) (model : String) : Except HandleErr String :=
  handle_response (fetch model messages)

/-! ### Claim C4 -/

/-- Claim C4: for every upstream response, synchronous `complete` fails with
a provider error carrying the envelope's `message` and `code` fields
unchanged when the response carries a (truthy) error envelope; fails with
the empty-response error when there is no (truthy) envelope and zero
choices; and in exactly the remaining case — no truthy envelope, at least
one choice — succeeds with `choices[0].message.content`. -/
theorem complete_cases :
    (∀ (fetch : String → List FormattedMsg → Response) messages model env m c,
      (fetch model messages).error = some env →
      lookupA env "message" = some m → lookupA env "code" = some c →
      get_response fetch messages model = .error (.providerError m c)) ∧
    (∀ (fetch : String → List FormattedMsg → Response) messages model,
      ((fetch model messages).error = none ∨ (fetch model messages).error = some []) →
      (fetch model messages).choices = [] →
      get_response fetch messages model = .error .emptyResponse) ∧
    (∀ (fetch : String → List FormattedMsg → Response) messages model ch rest,
      ((fetch model messages).error = none ∨ (fetch model messages).error = some []) →
      (fetch model messages).choices = ch :: rest →
      get_response fetch messages model = .ok ch.message.content) := by
  refine ⟨?_, ?_, ?_⟩
  · intro fetch messages model env m c herr hm hc
    cases env with
    | nil => simp [lookupA] at hm
    | cons p rest =>
      simp only [get_response, handle_response, herr, hm, hc, Option.getD_some]
  · intro fetch messages model herr hch
    rcases herr with h | h <;>
      simp only [get_response, handle_response, h, hch]
  · intro fetch messages model ch rest herr hch
    rcases herr with h | h <;>
      simp only [get_response, handle_response, h, hch]

/-- Witness for C4 at concrete responses, including the spec's simulated
envelope: message "rate limited" and code "429" surface unchanged; zero
choices give the empty-response error; one choice succeeds with its text. -/
theorem complete_cases_w :
    get_response (fun _ _ =>
        ⟨some [("message", "rate limited"), ("code", "429")], []⟩) [] "m" =
      .error (.providerError "rate limited" "429") ∧
    get_response (fun _ _ => ⟨none, []⟩) [] "m" = .error .emptyResponse ∧
    get_response (fun _ _ => ⟨none, [⟨⟨"hi"⟩⟩]⟩) [] "m" = .ok "hi" :=
  ⟨complete_cases.1 (fun _ _ => ⟨some [("message", "rate limited"),
      ("code", "429")], []⟩) [] "m"
    [("message", "rate limited"), ("code", "429")] "rate limited" "429"
    rfl rfl rfl,
   complete_cases.2.1 (fun _ _ => ⟨none, []⟩) [] "m" (Or.inl rfl) rfl,
   complete_cases.2.2 (fun _ _ => ⟨none, [⟨⟨"hi"⟩⟩]⟩) [] "m" ⟨⟨"hi"⟩⟩ []
     (Or.inl rfl) rfl⟩

/-! ### Claim C5 -/

/-- `ai.py` `ProviderConfig` (fields as assigned in `__init__`). -/
structure ProviderConfig where
  api_key : String
  model : String
  base_url : Option String
  extra_headers : List (String × String)
  name : String
deriving DecidableEq

/-- The network client `create_openai_client` builds (`OpenAI(api_key=...,
base_url=...)`). -/
structure Client where
  api_key : String
  base_url : Option String
deriving DecidableEq

/-- A constructed provider: the created network client plus the captured
configuration (the dict of closures returned by `create_provider`). -/
structure Provider where
  client : Client
  config : ProviderConfig
deriving DecidableEq

/-- The error raised by `ProviderConfig.__init__` when the model is absent
from the loaded model definitions (`raise ValueError("Unknown model: ...")`,
the spec's `UnknownModelError`). -/
inductive CfgErr where
  | unknownModel (model : String)
deriving DecidableEq

/-- `ProviderConfig.__init__` (`ai.py` lines 49-66): store the fields
(`extra_headers or` \x7b\x7d` → empty list) and validate the model against
the definition source via `get_model_info(model)`; fail if unknown. -/
def mkProviderConfig (src : Src) (api_key model : String)
    (base_url : Option String) (extra_headers : Option (List (String × String)))
    (name : String) : Except CfgErr ProviderConfig :=
  if (modelLookup src model none).isSome then
    .ok ⟨api_key, model, base_url, extra_headers.getD [], name⟩
  else .error (.unknownModel model)

def create_openai_client (config : ProviderConfig) : Client :=
  ⟨config.api_key, config.base_url⟩

/-- `create_provider` (`ai.py` lines 118-173): creates the network client
and returns the closure bundle. -/
def create_provider (config : ProviderConfig) : Provider :=
  ⟨create_openai_client config, config⟩

/-- `create_openai_provider` (`ai.py` lines 176-186). The second component
counts the network clients created by the construction attempt: the config
is validated first, and only a successful validation reaches
`create_provider`/`create_openai_client`. -/
def create_openai_provider (src : Src) (api_key : String)
    (model : Option String) : Except CfgErr Provider × Nat :=
  let m := model.getD "gpt-4o"
  match mkProviderConfig src api_key m none none "OpenAI Provider" with
  | .error e => (.error e, 0)
  | .ok config => (.ok (create_provider config), 1)

/-- `create_openrouter_provider` (`ai.py` lines 189-212), with the
truthiness-guarded referrer/title headers. -/
def create_openrouter_provider (src : Src) (api_key : String)
    (model : Option String) (site_url site_name : Option String) :
    Except CfgErr Provider × Nat :=
  let m := model.getD "openai/gpt-4o"
  let refHeaders := match site_url with
    | some u => if u = "" then [] else [("HTTP-Referer", u)]
    | none => []
  let titleHeaders := match site_name with
    | some n => if n = "" then [] else [("X-Title", n)]
    | none => []
  match mkProviderConfig src api_key m (some "https://openrouter.ai/api/v1")
      (some (refHeaders ++ titleHeaders)) "OpenRouter Provider" with
  | .error e => (.error e, 0)
  | .ok config => (.ok (create_provider config), 1)

/-- Claim C5: constructing a provider adapter (either variant) with a model
identifier not present in the model definition source always fails with the
unknown-model error, and the failed construction creates zero network
clients. -/
theorem unknown_model_no_client (src : Src) (api_key m : String)
    (site_url site_name : Option String)
    (h : modelLookup src m none = none) :
    create_openai_provider src api_key (some m) =
      (.error (.unknownModel m), 0) ∧
    create_openrouter_provider src api_key (some m) site_url site_name =
      (.error (.unknownModel m), 0) := by
  constructor
  · simp only [create_openai_provider, Option.getD_some, mkProviderConfig, h,
      Option.isSome_none, Bool.false_eq_true, if_false]
  · simp only [create_openrouter_provider, Option.getD_some, mkProviderConfig, h,
      Option.isSome_none, Bool.false_eq_true, if_false]

/-- Witness for C5: model "nope" is absent from a one-provider source; both
constructions fail with the unknown-model error and create no client. -/
theorem unknown_model_no_client_w :
    create_openai_provider
        [("openai", [("gpt-4o", ⟨"general", "flagship", some 128000, none⟩)])]
        "sk-test" (some "nope") = (.error (.unknownModel "nope"), 0) ∧
    create_openrouter_provider
        [("openai", [("gpt-4o", ⟨"general", "flagship", some 128000, none⟩)])]
        "sk-test" (some "nope") (some "https://example.com") none =
      (.error (.unknownModel "nope"), 0) :=
  unknown_model_no_client
    [("openai", [("gpt-4o", ⟨"general", "flagship", some 128000, none⟩)])]
    "sk-test" "nope" (some "https://example.com") none (by decide)

/-! ### Claims C9 and C10 -/

/-- Claim C10: constructing a Message from a plain string `s` normalizes its
content to the single-element list `[text s]` — so the content is never
empty and `get_text_content` returns exactly `[s]` — while constructing a
Message from a list of content parts stores that list unchanged. -/
theorem message_string_normalization :
    (∀ role s, (mkMessage role (.str s)).content = [ContentItem.text s] ∧
      (mkMessage role (.str s)).content ≠ [] ∧
      (mkMessage role (.str s)).get_text_content = [s]) ∧
    (∀ role items, (mkMessage role (.parts items)).content = items) := by
  refine ⟨fun role s => ⟨rfl, by simp [mkMessage], ?_⟩, fun role items => rfl⟩
  simp [mkMessage, Message.get_text_content]

/-- Claim C9: for the Agent with name "Nova" and description
"concise and factual", the synthesized system prompt is exactly
"You are Nova. Your goal is to be concise and factual", for every
conversation store, conversation and default model (the prompt, and the
system message `run` sends, depend only on the persona). -/
theorem nova_system_prompt (dm : String) (convs : List (String × Conversation))
    (conv : Conversation) :
    Agent.system_prompt ⟨"Nova", "concise and factual", dm, convs⟩ =
      "You are Nova. Your goal is to be concise and factual" ∧
    (messagesForAI ⟨"Nova", "concise and factual", dm, convs⟩ conv).head? =
      some ("system",
        [ContentItem.text "You are Nova. Your goal is to be concise and factual"]) := by
  constructor
  · rfl
  · rfl
